import Mathlib

/-!
Verification development for the gov-watcher repository.

The repository is a small crawler/notifier: `watcher.py` loads a JSON
config and a JSON state file, fetches each configured listing page,
extracts `(title, resolved_url)` items, diffs them against the persisted
per-site state using one of two strategies (`track_all`, `track_latest`),
prepends new items to a markdown history file, fires best-effort
notifications, and rewrites the whole state file at the end of the run.

The definitions below are a shallow embedding of `src/gov-watcher/watcher.py`.
I/O boundaries that are outside the repository's code are modelled
explicitly as data:
  * a file on disk is a `FileContent` (missing, present-but-unparsable,
    or a parsed JSON value); the Python stdlib `json` codec is not code of
    this repository, so a successfully written file directly records the
    JSON value it holds (`FileContent.valid`), and `json.loads` on it
    recovers exactly that value;
  * fetching and HTML extraction (excluded from the spec's scope) are
    modelled by pairing each config entry with the `Option (List Item)`
    it produced: `none` for a falsy `fetch_html` result, `some items`
    for the standardized `(title, full_url)` list;
  * the wall clock (`datetime.now`) is a string parameter, and the HTTP
    outcome of each `requests.post` in `notify` is an oracle
    `Nat → HttpOutcome` indexed by the number of notify calls made so far.
-/

namespace GovWatcher

open scoped List

/-- A standardized page item: `(title, resolved link)`, as built in the
`current_items` loop of `run_watcher` (watcher.py lines 176-190). -/
abbrev Item := String × String

/-- JSON values, as far as this program stores them (null, strings,
arrays, objects); numbers and booleans never occur in the persisted
state shapes the claims are about. -/
inductive Json where
  | null
  | str (s : String)
  | arr (elems : List Json)
  | obj (fields : List (String × Json))

/-- Content of a file on disk as seen by `load_json` / `save_json`:
missing, present but not valid JSON (with its raw text), or valid JSON
holding a parsed value. -/
inductive FileContent where
  | missing
  | invalid (raw : String)
  | valid (value : Json)

/-- Model of `json.loads` applied to the text of a file: raises
(`Except.error`) on a missing file read or undecodable text, returns the
parsed value otherwise. -/
def json_loads : FileContent → Except String Json
  | FileContent.missing => Except.error "FileNotFoundError"
  | FileContent.invalid raw => Except.error ("JSONDecodeError: " ++ raw)
  | FileContent.valid value => Except.ok value

/-- Embedding of `load_json` (watcher.py lines 26-36): if the path does
not exist, return `{}`; otherwise parse, and catch `JSONDecodeError` as
well as any other exception, returning `{}`.  The function is total
(returns `Json`, not `Except`): no exception escapes. -/
def load_json (file : FileContent) : Json :=
  match file with
  | FileContent.missing => Json.obj []
  | f =>
    match json_loads f with
    | Except.ok value => value
    | Except.error _ => Json.obj []

/-- Embedding of the rajkaj-watcher state load (check.py line 59):
`json.loads(STATE_FILE.read_text(encoding="utf-8")) if STATE_FILE.exists()
else {}`.  There is no exception handler around this `json.loads`, so a
decode error on an existing file propagates out of `main`; only the
missing-file case yields the empty mapping. -/
def rajkaj_load_state (file : FileContent) : Except String Json :=
  match file with
  | FileContent.missing => Except.ok (Json.obj [])
  | f => json_loads f

/-- Embedding of `save_json` (watcher.py lines 38-49): the data is dumped
into a temporary file in the target's directory, which is then renamed
onto the target.  `dumpOk` models whether the dump and temp-file write
complete; on failure the temporary file is abandoned, the target is left
untouched and the exception is re-raised (the `raise` on line 49),
modelled by the `Except.error` component. -/
def save_json (target : FileContent) (data : Json) (dumpOk : Bool) :
    FileContent × Except String Unit :=
  if dumpOk then (FileContent.valid data, Except.ok ())
  else (target, Except.error "Error saving")

/-- Title escaping in `update_history` (watcher.py line 106). -/
def escapeTitle (title : String) : String :=
  (title.replace "]" "\\]").replace "[" "\\["

/-- One markdown bullet of the history block (watcher.py line 108). -/
def historyLine (it : Item) : String :=
  "- [" ++ escapeTitle it.1 ++ "](<" ++ it.2 ++ ">)\n"

/-- The block `update_history` builds for one site and one run
(watcher.py lines 102-109). -/
def historyBlock (site_name timestamp : String) (items : List Item) : String :=
  "### " ++ site_name ++ " - " ++ timestamp ++ "\n"
    ++ String.join (items.map historyLine)
    ++ "\n---\n\n"

/-- Embedding of `update_history` (watcher.py lines 100-121): read the
current history file content (empty when the file is missing) and write
the new block followed by that content.  Returns the new file content. -/
def update_history (site_name timestamp : String) (items : List Item)
    (current : Option String) : String :=
  historyBlock site_name timestamp items ++ current.getD ""

/-- Outcome of one `requests.post` to ntfy.sh: an HTTP response with a
status code and body, or a transport-level exception. -/
inductive HttpOutcome where
  | response (status : Nat) (body : String)
  | failure (msg : String)
deriving Repr, DecidableEq

/-- The `try` block of `notify` (watcher.py lines 85-96): a transport
failure raises; a response with status outside (200, 201) logs a
warning.  Returns the warning lines produced. -/
def notifyCore (topic title link : String) (r : HttpOutcome) :
    Except String (List String) :=
  match r with
  | HttpOutcome.failure msg => Except.error msg
  | HttpOutcome.response status body =>
    if status = 200 ∨ status = 201 then Except.ok []
    else Except.ok
      ["ntfy.sh returned " ++ toString status ++ " for " ++ topic ++ ": "
        ++ body.take 100]

/-- The observable behaviour of `notify`: warning lines only (the
exception handler on lines 97-98 turns any raised exception into a
warning). -/
def notifyWarnings (topic title link : String) (r : HttpOutcome) : List String :=
  match notifyCore topic title link r with
  | Except.ok ws => ws
  | Except.error msg => ["Notification failed for " ++ topic ++ ": " ++ msg]

/-- Embedding of the whole `notify` function (watcher.py lines 83-98),
with its exception channel made explicit: the body may raise
(`notifyCore`), the handler catches everything and returns normally. -/
def notify (topic title link : String) (r : HttpOutcome) :
    Except String (List String) :=
  match notifyCore topic title link r with
  | Except.ok ws => Except.ok ws
  | Except.error msg =>
    Except.ok ["Notification failed for " ++ topic ++ ": " ++ msg]

/-- Per-site persisted state, the two keys `run_watcher` reads and
writes: `seen_urls` (track_all) and `last_seen_url` (track_latest).
`state.get(site_id, {"seen_urls": []})` yields the default
`⟨[], none⟩`. -/
structure SiteState where
  seen_urls : List String
  last_seen_url : Option String
deriving Repr, DecidableEq

/-- Default site state used on line 198 of watcher.py. -/
def defaultSiteState : SiteState :=
  { seen_urls := [], last_seen_url := none }

/-- The `track_all` inner loop (watcher.py lines 210-214): walk the page
items in order; a link not yet in the seen set is new, and is appended
to both the seen list and the seen set.  The Python code keeps
`seen_urls_set` equal to `set(seen_urls_list)` throughout, so membership
in the list is the faithful test.  Returns the new items and the grown
seen list. -/
def trackAllLoop : List Item → List String → List Item × List String
  | [], seen => ([], seen)
  | (title, link) :: rest, seen =>
    if link ∈ seen then trackAllLoop rest seen
    else
      let r := trackAllLoop rest (seen ++ [link])
      ((title, link) :: r.1, r.2)

/-- The seen-list cap (watcher.py lines 217-219): when the list exceeds
1000 entries, keep only the last 1000 (`seen_urls_list[-1000:]`). -/
def capSeen (seen_urls_list : List String) : List String :=
  if seen_urls_list.length > 1000 then
    seen_urls_list.drop (seen_urls_list.length - 1000)
  else seen_urls_list

/-- The whole `track_all` branch (watcher.py lines 208-223): run the
loop, cap the grown list, store it back in the site state. -/
def trackAllDiff (current_items : List Item) (site_state : SiteState) :
    List Item × SiteState :=
  let r := trackAllLoop current_items site_state.seen_urls
  (r.1, { site_state with seen_urls := capSeen r.2 })

/-- The `track_latest` collection loop (watcher.py lines 236-239): walk
the page items from the top, stop at the first link equal to the old
marker, collect everything before it. -/
def collectUntil (last_seen : Option String) : List Item → List Item
  | [] => []
  | it :: rest =>
    if some it.2 = last_seen then []
    else it :: collectUntil last_seen rest

/-- The whole `track_latest` branch (watcher.py lines 225-241): when the
top link differs from the persisted marker, collect items until the
marker is hit and persist the top link as the new marker; otherwise
nothing is new and the state is untouched.  `run_watcher` only reaches
this branch with a non-empty item list (line 192); the `[]` case is
unreachable there. -/
def trackLatestDiff (current_items : List Item) (site_state : SiteState) :
    List Item × SiteState :=
  match current_items with
  | [] => ([], site_state)
  | (_, top_link) :: _ =>
    if some top_link ≠ site_state.last_seen_url then
      (collectUntil site_state.last_seen_url current_items,
        { site_state with last_seen_url := some top_link })
    else ([], site_state)

/-- The strategy dispatch of `run_watcher` (lines 208, 225): `track_all`
and `track_latest` branches; any other strategy string leaves the site
state untouched and reports nothing new. -/
def diffStep (strategy : String) (current_items : List Item)
    (site_state : SiteState) : List Item × SiteState :=
  if strategy = "track_all" then trackAllDiff current_items site_state
  else if strategy = "track_latest" then trackLatestDiff current_items site_state
  else ([], site_state)

/-- One config entry as read on watcher.py lines 138-144: `get` on a
dict returns `none` for a missing key; `base_url`, `strategy` and
`topic` carry their defaults already applied. -/
structure Site where
  id : Option String
  name : Option String
  url : Option String
  selector : Option String
  base_url : String
  strategy : String
  topic : String
deriving Repr, DecidableEq

/-- Python truthiness of an optional string: `None` and `""` are falsy. -/
def truthy : Option String → Bool
  | none => false
  | some s => !s.isEmpty

/-- The config validation on watcher.py line 147:
`all([site_id, name, url])`. -/
def validSite (s : Site) : Bool :=
  truthy s.id && truthy s.name && truthy s.url

/-- A config entry paired with the outcome of fetching and extracting
its page in this run: `none` when `fetch_html` returned a falsy value,
`some items` for the standardized `current_items` list (possibly empty). -/
structure Entry where
  site : Site
  fetched : Option (List Item)
deriving Repr, DecidableEq

/-- Point update of the state mapping: `state[site_id] = site_state`
(watcher.py line 256). -/
def setSite (st : String → Option SiteState) (sid : String) (v : SiteState) :
    String → Option SiteState :=
  fun k => if k = sid then some v else st k

/-- The notification loop of `run_watcher` (lines 250-251), called on
`reversed(new_items)`: one `notify` per item, message `f"{name}: {title}"`,
consuming one oracle outcome per call.  Returns the warning lines. -/
def notifyAll (o : Nat → HttpOutcome) (topic site_name : String) :
    List Item → Nat → List String
  | [], _ => []
  | (title, link) :: rest, c =>
    notifyWarnings topic (site_name ++ ": " ++ title) link (o c)
      ++ notifyAll o topic site_name rest (c + 1)

/-- Accumulated run effects: the in-memory state mapping, the history
file content (`none` when the file does not exist yet), the notify
warning lines, and the number of notify calls made so far. -/
structure RunAcc where
  state : String → Option SiteState
  history : Option String
  warnings : List String
  calls : Nat

/-- One iteration of the site loop of `run_watcher` (watcher.py lines
137-256): skip invalid config entries, skip sites whose fetch failed or
whose page yielded no items; otherwise compute the diff, and when there
are new items prepend the history block and notify oldest-first; in all
processed cases write the site state back under the site's id. -/
def processSite (timestamp : String) (o : Nat → HttpOutcome) (acc : RunAcc)
    (e : Entry) : RunAcc :=
  if validSite e.site then
    match e.fetched with
    | none => acc
    | some current_items =>
      if current_items = [] then acc
      else
        let sid := e.site.id.getD ""
        let site_state := (acc.state sid).getD defaultSiteState
        let r := diffStep e.site.strategy current_items site_state
        let acc1 :=
          if r.1 = [] then acc
          else
            { acc with
              history :=
                some (update_history (e.site.name.getD "") timestamp r.1
                  acc.history),
              warnings :=
                acc.warnings
                  ++ notifyAll o e.site.topic (e.site.name.getD "")
                    r.1.reverse acc.calls,
              calls := acc.calls + r.1.length }
        { acc1 with state := setSite acc1.state sid r.2 }
  else acc

/-- Initial accumulator: the loaded state mapping and history file. -/
def initAcc (st0 : String → Option SiteState) (hist0 : Option String) : RunAcc :=
  { state := st0, history := hist0, warnings := [], calls := 0 }

/-- The site loop of `run_watcher` as a fold over the config entries. -/
def runFold (timestamp : String) (o : Nat → HttpOutcome) (entries : List Entry)
    (acc : RunAcc) : RunAcc :=
  entries.foldl (processSite timestamp o) acc

/-- Embedding of `run_watcher` (watcher.py lines 125-260): with a falsy
(empty) config the function returns before the site loop and before
saving; otherwise it folds the site loop over the config and reaches the
final `save_json(STATE_FILE, state)`.  The boolean records whether that
save was reached. -/
def run_watcher (timestamp : String) (o : Nat → HttpOutcome)
    (entries : List Entry) (st0 : String → Option SiteState)
    (hist0 : Option String) : RunAcc × Bool :=
  if entries = [] then (initAcc st0 hist0, false)
  else (runFold timestamp o entries (initAcc st0 hist0), true)

/-- Whether a config entry's diff is computed in this run (it passes
validation, its fetch succeeded, and its page yielded items): exactly
the condition under which `run_watcher` reaches line 256 and writes the
site's state entry. -/
def diffed (e : Entry) : Bool :=
  validSite e.site
    && (match e.fetched with
        | some current_items => decide (current_items ≠ [])
        | none => false)

/-- The ids of the entries whose diff is computed in this run. -/
def diffedIds (entries : List Entry) : List String :=
  entries.filterMap (fun e => if diffed e then e.site.id else none)

/-- Concrete pairwise-distinct URL strings for concrete inputs:
`exLink i` is the string of `i` copies of the letter a. -/
def exLink (i : Nat) : String := String.mk (List.replicate i 'a')

/-- A persisted seen list holding 1001 distinct URLs. -/
def exSeen : List String := (List.range 1001).map exLink

/-- A site state whose loaded seen list already holds 1001 distinct URLs. -/
def exState : SiteState := { seen_urls := exSeen, last_seen_url := none }

/-- A page showing a single link, the oldest URL of `exSeen`. -/
def exItems : List Item := [("old order", exLink 0)]

/-- A concrete valid config entry whose fetch produced nothing. -/
def exEntryFetchFail : Entry :=
  { site :=
      { id := some "s1", name := some "n", url := some "u",
        selector := none, base_url := "", strategy := "track_latest",
        topic := "t" },
    fetched := none }

/-- A concrete valid `track_latest` config entry showing one item. -/
def exEntryOk : Entry :=
  { site :=
      { id := some "s1", name := some "n", url := some "u",
        selector := none, base_url := "", strategy := "track_latest",
        topic := "t" },
    fetched := some [("a", "u1")] }

/-! ## Lemmas about the `track_all` loop -/

theorem trackAllLoop_snd_eq (items : List Item) :
    ∀ seen : List String,
      (trackAllLoop items seen).2 = seen ++ (trackAllLoop items seen).1.map Prod.snd := by
  induction items with
  | nil => intro seen; simp [trackAllLoop]
  | cons it rest ih =>
    intro seen
    obtain ⟨t, l⟩ := it
    by_cases h : l ∈ seen
    · simpa [trackAllLoop, h] using ih seen
    · simp only [trackAllLoop, if_neg h, List.map_cons]
      rw [ih (seen ++ [l])]
      simp

theorem trackAllLoop_mem_snd (items : List Item) :
    ∀ (seen : List String) (l : String),
      l ∈ (trackAllLoop items seen).2 ↔ l ∈ seen ∨ l ∈ items.map Prod.snd := by
  induction items with
  | nil => intro seen l; simp [trackAllLoop]
  | cons it rest ih =>
    intro seen l
    obtain ⟨t, l'⟩ := it
    by_cases h : l' ∈ seen
    · simp only [trackAllLoop, if_pos h, List.map_cons, List.mem_cons]
      rw [ih seen l]
      constructor
      · rintro (h1 | h1)
        · exact Or.inl h1
        · exact Or.inr (Or.inr h1)
      · rintro (h1 | rfl | h1)
        · exact Or.inl h1
        · exact Or.inl h
        · exact Or.inr h1
    · simp only [trackAllLoop, if_neg h, List.map_cons, List.mem_cons]
      rw [ih (seen ++ [l']) l]
      simp only [List.mem_append, List.mem_singleton]
      tauto

theorem trackAllLoop_fst_not_mem (items : List Item) :
    ∀ seen : List String, ∀ it ∈ (trackAllLoop items seen).1, it.2 ∉ seen := by
  induction items with
  | nil => intro seen it hit; simp [trackAllLoop] at hit
  | cons hd rest ih =>
    intro seen it hit
    obtain ⟨t, l⟩ := hd
    by_cases h : l ∈ seen
    · exact ih seen it (by simpa [trackAllLoop, h] using hit)
    · simp only [trackAllLoop, if_neg h, List.mem_cons] at hit
      rcases hit with rfl | hit
      · exact h
      · intro hmem
        exact ih (seen ++ [l]) it hit (by simp [hmem])

theorem trackAllLoop_sublist (items : List Item) :
    ∀ seen : List String, (trackAllLoop items seen).1 <+ items := by
  induction items with
  | nil => intro seen; simp [trackAllLoop]
  | cons hd rest ih =>
    intro seen
    obtain ⟨t, l⟩ := hd
    by_cases h : l ∈ seen
    · simpa [trackAllLoop, h] using (ih seen).cons (t, l)
    · simpa [trackAllLoop, h] using (ih (seen ++ [l])).cons₂ (t, l)

theorem trackAllLoop_all_seen (items : List Item) :
    ∀ seen : List String, (∀ it ∈ items, it.2 ∈ seen) →
      trackAllLoop items seen = ([], seen) := by
  induction items with
  | nil => intro seen _; rfl
  | cons hd rest ih =>
    intro seen hall
    obtain ⟨t, l⟩ := hd
    have hl : l ∈ seen := hall (t, l) (List.mem_cons_self _ _)
    simp only [trackAllLoop, if_pos hl]
    exact ih seen (fun it hit => hall it (List.mem_cons_of_mem _ hit))

/-! ## Lemmas about the seen-list cap -/

theorem capSeen_length (l : List String) : (capSeen l).length = min l.length 1000 := by
  unfold capSeen
  split
  · simp only [List.length_drop]
    omega
  · omega

theorem capSeen_suffix (l : List String) : capSeen l <:+ l := by
  unfold capSeen
  split
  · exact List.drop_suffix _ _
  · exact List.suffix_refl _

theorem capSeen_of_le (l : List String) (h : l.length ≤ 1000) : capSeen l = l := by
  unfold capSeen
  rw [if_neg]
  omega

/-! ## Lemmas about the `track_latest` collection loop -/

theorem collectUntil_of_none_eq (last_seen : Option String) (items : List Item)
    (h : ∀ it ∈ items, some it.2 ≠ last_seen) :
    collectUntil last_seen items = items := by
  induction items with
  | nil => rfl
  | cons hd rest ih =>
    simp only [collectUntil, if_neg (h hd (List.mem_cons_self _ _))]
    rw [ih (fun it hit => h it (List.mem_cons_of_mem _ hit))]

theorem collectUntil_split (last_seen : Option String) (items : List Item) :
    ∃ rest, items = collectUntil last_seen items ++ rest
      ∧ (∀ it ∈ collectUntil last_seen items, some it.2 ≠ last_seen)
      ∧ ∀ it0, rest.head? = some it0 → some it0.2 = last_seen := by
  induction items with
  | nil => exact ⟨[], by simp [collectUntil]⟩
  | cons hd rest ih =>
    by_cases h : some hd.2 = last_seen
    · refine ⟨hd :: rest, ?_, ?_, ?_⟩
      · simp [collectUntil, if_pos h]
      · intro it hit
        simp [collectUntil, if_pos h] at hit
      · intro it0 hit0
        simp only [List.head?_cons, Option.some_inj] at hit0
        rw [← hit0]
        exact h
    · obtain ⟨r, hr1, hr2, hr3⟩ := ih
      refine ⟨r, ?_, ?_, hr3⟩
      · simp only [collectUntil, if_neg h, List.cons_append]
        rw [← hr1]
      · intro it hit
        simp only [collectUntil, if_neg h, List.mem_cons] at hit
        rcases hit with rfl | hit
        · exact h
        · exact hr2 it hit

theorem trackLatestDiff_marker (t0 l0 : String) (tl : List Item) (st : SiteState) :
    (trackLatestDiff ((t0, l0) :: tl) st).2.last_seen_url = some l0 := by
  by_cases h : some l0 ≠ st.last_seen_url
  · simp [trackLatestDiff, if_pos h]
  · push_neg at h
    simp [trackLatestDiff, h]

theorem diffStep_track_all (current_items : List Item) (site_state : SiteState) :
    diffStep "track_all" current_items site_state
      = trackAllDiff current_items site_state := rfl

theorem trackAllDiff_fst (current_items : List Item) (site_state : SiteState) :
    (trackAllDiff current_items site_state).1
      = (trackAllLoop current_items site_state.seen_urls).1 := rfl

theorem trackAllDiff_seen (current_items : List Item) (site_state : SiteState) :
    (trackAllDiff current_items site_state).2.seen_urls
      = capSeen (trackAllLoop current_items site_state.seen_urls).2 := rfl

theorem diffStep_track_latest (current_items : List Item) (site_state : SiteState) :
    diffStep "track_latest" current_items site_state
      = trackLatestDiff current_items site_state := rfl

/-! ## Lemmas about the site loop -/

theorem runFold_nil (timestamp : String) (o : Nat → HttpOutcome) (acc : RunAcc) :
    runFold timestamp o [] acc = acc := rfl

theorem runFold_cons (timestamp : String) (o : Nat → HttpOutcome) (e : Entry)
    (rest : List Entry) (acc : RunAcc) :
    runFold timestamp o (e :: rest) acc
      = runFold timestamp o rest (processSite timestamp o acc e) := rfl

theorem processSite_skip (timestamp : String) (o : Nat → HttpOutcome)
    (acc : RunAcc) (e : Entry)
    (h : e.fetched = none ∨ e.fetched = some []) :
    processSite timestamp o acc e = acc := by
  rcases h with h | h <;>
    · unfold processSite
      rw [h]
      split <;> rfl

theorem processSite_no_diff (timestamp : String) (o : Nat → HttpOutcome)
    (acc : RunAcc) (e : Entry) (h : diffed e = false) :
    processSite timestamp o acc e = acc := by
  unfold processSite
  by_cases hv : validSite e.site = true
  · rw [if_pos hv]
    cases hf : e.fetched with
    | none => rfl
    | some items =>
      simp only [diffed, hv, hf, Bool.true_and] at h
      simp only [decide_eq_false_iff_not, not_not] at h
      simp only [if_pos h]
  · rw [if_neg hv]

theorem processSite_state_ne (timestamp : String) (o : Nat → HttpOutcome)
    (acc : RunAcc) (e : Entry) (k : String)
    (hk : k ≠ e.site.id.getD "") :
    (processSite timestamp o acc e).state k = acc.state k := by
  unfold processSite
  by_cases hv : validSite e.site = true
  · rw [if_pos hv]
    cases hf : e.fetched with
    | none => rfl
    | some items =>
      dsimp only
      by_cases hi : items = []
      · rw [if_pos hi]
      · rw [if_neg hi]
        show setSite _ (e.site.id.getD "") _ k = acc.state k
        simp only [setSite]
        rw [if_neg hk]
        split <;> rfl
  · rw [if_neg hv]

theorem processSite_oracle (timestamp : String) (o1 o2 : Nat → HttpOutcome)
    (acc1 acc2 : RunAcc) (e : Entry)
    (hst : acc1.state = acc2.state) (hh : acc1.history = acc2.history)
    (hc : acc1.calls = acc2.calls) :
    (processSite timestamp o1 acc1 e).state = (processSite timestamp o2 acc2 e).state
    ∧ (processSite timestamp o1 acc1 e).history
        = (processSite timestamp o2 acc2 e).history
    ∧ (processSite timestamp o1 acc1 e).calls
        = (processSite timestamp o2 acc2 e).calls := by
  obtain ⟨s1, h1, w1, c1⟩ := acc1
  obtain ⟨s2, h2, w2, c2⟩ := acc2
  dsimp only at hst hh hc
  subst hst hh hc
  unfold processSite
  by_cases hv : validSite e.site = true
  · rw [if_pos hv, if_pos hv]
    cases hf : e.fetched with
    | none => exact ⟨rfl, rfl, rfl⟩
    | some items =>
      dsimp only
      by_cases hi : items = []
      · rw [if_pos hi, if_pos hi]
        exact ⟨rfl, rfl, rfl⟩
      · rw [if_neg hi, if_neg hi]
        refine ⟨?_, ?_, ?_⟩ <;> (split <;> rfl)
  · rw [if_neg hv, if_neg hv]
    exact ⟨rfl, rfl, rfl⟩

theorem runFold_oracle (timestamp : String) (o1 o2 : Nat → HttpOutcome)
    (entries : List Entry) :
    ∀ acc1 acc2 : RunAcc, acc1.state = acc2.state → acc1.history = acc2.history →
      acc1.calls = acc2.calls →
      (runFold timestamp o1 entries acc1).state
          = (runFold timestamp o2 entries acc2).state
      ∧ (runFold timestamp o1 entries acc1).history
          = (runFold timestamp o2 entries acc2).history
      ∧ (runFold timestamp o1 entries acc1).calls
          = (runFold timestamp o2 entries acc2).calls := by
  induction entries with
  | nil => intro acc1 acc2 hst hh hc; exact ⟨hst, hh, hc⟩
  | cons e rest ih =>
    intro acc1 acc2 hst hh hc
    rw [runFold_cons, runFold_cons]
    obtain ⟨h1, h2, h3⟩ := processSite_oracle timestamp o1 o2 acc1 acc2 e hst hh hc
    exact ih _ _ h1 h2 h3

theorem processSite_history_suffix (timestamp : String) (o : Nat → HttpOutcome)
    (acc : RunAcc) (e : Entry) :
    ∃ p, (processSite timestamp o acc e).history.getD ""
      = p ++ acc.history.getD "" := by
  unfold processSite
  by_cases hv : validSite e.site = true
  · rw [if_pos hv]
    cases hf : e.fetched with
    | none => exact ⟨"", rfl⟩
    | some items =>
      dsimp only
      by_cases hi : items = []
      · rw [if_pos hi]
        exact ⟨"", rfl⟩
      · rw [if_neg hi]
        split
        · exact ⟨"", rfl⟩
        · exact ⟨historyBlock (e.site.name.getD "") timestamp
            (diffStep e.site.strategy items
              ((acc.state (e.site.id.getD "")).getD defaultSiteState)).1, rfl⟩
  · rw [if_neg hv]
    exact ⟨"", rfl⟩

theorem runFold_history_suffix (timestamp : String) (o : Nat → HttpOutcome)
    (entries : List Entry) :
    ∀ acc : RunAcc, ∃ p, (runFold timestamp o entries acc).history.getD ""
      = p ++ acc.history.getD "" := by
  induction entries with
  | nil => intro acc; exact ⟨"", rfl⟩
  | cons e rest ih =>
    intro acc
    rw [runFold_cons]
    obtain ⟨p1, h1⟩ := ih (processSite timestamp o acc e)
    obtain ⟨p2, h2⟩ := processSite_history_suffix timestamp o acc e
    exact ⟨p1 ++ p2, by rw [h1, h2, String.append_assoc]⟩

theorem runFold_state_frame (timestamp : String) (o : Nat → HttpOutcome)
    (entries : List Entry) (k : String) :
    ∀ acc : RunAcc, k ∉ diffedIds entries →
      (runFold timestamp o entries acc).state k = acc.state k := by
  induction entries with
  | nil => intro acc _; rfl
  | cons e rest ih =>
    intro acc hk
    rw [runFold_cons]
    cases hde : diffed e with
    | false =>
      have hk' : k ∉ diffedIds rest := by
        intro hmem
        exact hk (by simp [diffedIds, List.filterMap_cons, hde] at hmem ⊢; exact hmem)
      rw [processSite_no_diff timestamp o acc e hde]
      exact ih acc hk'
    | true =>
      obtain ⟨s, hs⟩ : ∃ s, e.site.id = some s := by
        have hv : validSite e.site = true := by
          unfold diffed at hde
          exact (Bool.and_eq_true_iff.mp hde).1
        unfold validSite truthy at hv
        cases hid : e.site.id
        · rw [hid] at hv
          simp at hv
        · exact ⟨_, rfl⟩
      have hmem : diffedIds (e :: rest) = s :: diffedIds rest := by
        simp [diffedIds, List.filterMap_cons, hde, hs]
      rw [hmem] at hk
      have hk1 : k ≠ s := fun h => hk (h ▸ List.mem_cons_self _ _)
      have hk2 : k ∉ diffedIds rest := fun h => hk (List.mem_cons_of_mem _ h)
      rw [ih (processSite timestamp o acc e) hk2]
      apply processSite_state_ne
      rw [hs]
      exact hk1

/-! ## Claim theorems -/

/-- C1: for a site using `track_latest` with a non-empty list of
currently-visible links, the new items computed by the diff are exactly
the prefix of the page strictly before the first link equal to the
persisted `last_seen_url` (the whole list when no link equals it, which
covers the case of no persisted marker), in page order, and afterwards
the persisted `last_seen_url` equals the current top link whenever the
top link differs from the old marker. -/
theorem C1_track_latest_boundary (t0 l0 : String) (tl : List Item) (st : SiteState) :
    (∃ rest,
        (t0, l0) :: tl = (diffStep "track_latest" ((t0, l0) :: tl) st).1 ++ rest
        ∧ (∀ it ∈ (diffStep "track_latest" ((t0, l0) :: tl) st).1,
            some it.2 ≠ st.last_seen_url)
        ∧ ∀ it0, rest.head? = some it0 → some it0.2 = st.last_seen_url)
    ∧ ((∀ it ∈ (t0, l0) :: tl, some it.2 ≠ st.last_seen_url) →
        (diffStep "track_latest" ((t0, l0) :: tl) st).1 = (t0, l0) :: tl)
    ∧ (some l0 ≠ st.last_seen_url →
        (diffStep "track_latest" ((t0, l0) :: tl) st).2.last_seen_url = some l0) := by
  simp only [diffStep_track_latest]
  by_cases h : some l0 ≠ st.last_seen_url
  · simp only [trackLatestDiff, if_pos h]
    refine ⟨collectUntil_split st.last_seen_url ((t0, l0) :: tl), ?_, by simp⟩
    intro hall
    exact collectUntil_of_none_eq st.last_seen_url ((t0, l0) :: tl) hall
  · push_neg at h
    have hcond : ¬ (some l0 ≠ st.last_seen_url) := fun hne => hne h
    simp only [trackLatestDiff, if_neg hcond]
    refine ⟨⟨(t0, l0) :: tl, by simp, by simp, ?_⟩, ?_, ?_⟩
    · intro it0 hit0
      simp only [List.head?_cons, Option.some_inj] at hit0
      rw [← hit0]
      exact h
    · intro hall
      exact absurd h (hall (t0, l0) (List.mem_cons_self _ _))
    · intro hne
      exact absurd h hne

/-- C1 witness: with no persisted marker, every visible item of a
concrete two-item page is new. -/
theorem C1_track_latest_boundary_witness :
    (diffStep "track_latest" [("a", "u1"), ("b", "u2")]
      { seen_urls := [], last_seen_url := none }).1 = [("a", "u1"), ("b", "u2")] :=
  (C1_track_latest_boundary "a" "u1" [("b", "u2")]
    { seen_urls := [], last_seen_url := none }).2.1 (by decide)

/-- C2: for a site using `track_all`, a URL is reported as new exactly
when it is visible on the page and not in the loaded seen list; the new
items appear in page order (a sublist of the page); the grown seen list
is the loaded list with every reported new URL appended in order, and
the persisted list is that appended list, capped. -/
theorem C2_track_all_diff (items : List Item) (st : SiteState) :
    ((diffStep "track_all" items st).1 <+ items)
    ∧ (∀ l, l ∈ (diffStep "track_all" items st).1.map Prod.snd ↔
        l ∈ items.map Prod.snd ∧ l ∉ st.seen_urls)
    ∧ (trackAllLoop items st.seen_urls).2
        = st.seen_urls ++ (diffStep "track_all" items st).1.map Prod.snd
    ∧ (diffStep "track_all" items st).2.seen_urls
        = capSeen (st.seen_urls
            ++ (diffStep "track_all" items st).1.map Prod.snd) := by
  have h1 : (diffStep "track_all" items st).1
      = (trackAllLoop items st.seen_urls).1 := rfl
  have h2 : (diffStep "track_all" items st).2.seen_urls
      = capSeen (trackAllLoop items st.seen_urls).2 := rfl
  refine ⟨?_, ?_, ?_, ?_⟩
  · rw [h1]
    exact trackAllLoop_sublist items st.seen_urls
  · intro l
    rw [h1]
    constructor
    · intro hl
      obtain ⟨it, hit, rfl⟩ := List.mem_map.mp hl
      refine ⟨List.mem_map_of_mem Prod.snd
        ((trackAllLoop_sublist items st.seen_urls).subset hit), ?_⟩
      exact trackAllLoop_fst_not_mem items st.seen_urls it hit
    · rintro ⟨hmem, hnot⟩
      have : l ∈ (trackAllLoop items st.seen_urls).2 :=
        (trackAllLoop_mem_snd items st.seen_urls l).mpr (Or.inr hmem)
      rw [trackAllLoop_snd_eq items st.seen_urls] at this
      exact (List.mem_append.mp this).resolve_left hnot
  · rw [h1]
    exact trackAllLoop_snd_eq items st.seen_urls
  · rw [h2, h1, trackAllLoop_snd_eq items st.seen_urls]

/-- C4: after a `track_all` run the persisted seen list never exceeds
1000 entries; it is a suffix of the appended list (so only the oldest,
earliest-appended entries are dropped) of length exactly
`min (appended length) 1000` (so the most recent 1000 are kept whenever
truncation occurs). -/
theorem C4_seen_cap (items : List Item) (st : SiteState) :
    (diffStep "track_all" items st).2.seen_urls.length ≤ 1000
    ∧ (diffStep "track_all" items st).2.seen_urls.length
        = min (trackAllLoop items st.seen_urls).2.length 1000
    ∧ (diffStep "track_all" items st).2.seen_urls
        <:+ (trackAllLoop items st.seen_urls).2 := by
  have h2 : (diffStep "track_all" items st).2.seen_urls
      = capSeen (trackAllLoop items st.seen_urls).2 := rfl
  rw [h2, capSeen_length]
  exact ⟨Nat.min_le_right _ _, rfl, capSeen_suffix _⟩

/-- C5 (amended): gov-watcher's `load_json` returns the empty mapping
for a missing file and for a file whose content does not decode, and is
a total function into `Json`, so no exception propagates in either
case; the rajkaj-watcher state load returns the empty mapping only in
the missing-file case. -/
theorem C5_load_json_empty (file : FileContent)
    (h : file = FileContent.missing ∨ ∃ raw, file = FileContent.invalid raw) :
    load_json file = Json.obj []
    ∧ rajkaj_load_state FileContent.missing = Except.ok (Json.obj []) := by
  refine ⟨?_, rfl⟩
  rcases h with rfl | ⟨raw, rfl⟩ <;> rfl

/-- C5 witness: loading a file holding undecodable text through
gov-watcher's `load_json` yields the empty mapping. -/
theorem C5_load_json_empty_witness :
    load_json (FileContent.invalid "not json") = Json.obj []
    ∧ rajkaj_load_state FileContent.missing = Except.ok (Json.obj []) :=
  C5_load_json_empty (FileContent.invalid "not json")
    (Or.inr ⟨"not json", rfl⟩)

/-- C5 counterexample: the rajkaj-watcher state load (check.py line 59),
applied to an existing state file holding invalid JSON, raises the
decode error instead of returning the empty mapping: the claim's "for
every path ... never raises" is false at that cited load. -/
theorem C5_counterexample :
    (∃ msg, rajkaj_load_state (FileContent.invalid "not json")
        = Except.error msg)
    ∧ ∀ j, rajkaj_load_state (FileContent.invalid "not json")
        ≠ Except.ok j :=
  ⟨⟨"JSONDecodeError: " ++ "not json", rfl⟩,
    fun _ h => Except.noConfusion h⟩

/-- C6: a successful `save_json` writes the data wholesale (via the
temp-file-then-rename sequence, modelled as the single atomic state
change to `valid data`) and a subsequent `load_json` returns exactly the
saved mapping; a failed save (the dump raises before the rename) leaves
the previously persisted file content unchanged. -/
theorem C6_save_then_load (target : FileContent) (data : Json) :
    load_json (save_json target data true).1 = data
    ∧ (save_json target data true).1 = FileContent.valid data
    ∧ (save_json target data false).1 = target :=
  ⟨rfl, rfl, rfl⟩

/-- C7: for an existing history file with content `C` and a non-empty
list of new items, the updated file content is exactly the freshly
formatted block followed by `C`; in particular the prior content is
preserved as a suffix and the file strictly grows, never overwritten. -/
theorem C7_history_prepend (site_name timestamp C : String) (items : List Item)
    (_hne : items ≠ []) :
    update_history site_name timestamp items (some C)
      = historyBlock site_name timestamp items ++ C
    ∧ C.length < (update_history site_name timestamp items (some C)).length := by
  refine ⟨rfl, ?_⟩
  have hlen : (update_history site_name timestamp items (some C)).length
      = (historyBlock site_name timestamp items).length + C.length := by
    simp [update_history, String.length_append]
  have hb : 0 < (historyBlock site_name timestamp items).length := by
    unfold historyBlock
    simp only [String.length_append]
    have h4 : (4 : Nat) = ("### ").length := rfl
    omega
  omega

/-- C3 (amended): running the diff a second time against an unchanged
page yields zero new items — unconditionally for `track_latest`, and for
`track_all` provided the seen list grown during the first run stays
within the 1000-entry cap, so that no truncation occurs. -/
theorem C3_diff_idempotent (strategy : String) (items : List Item)
    (st : SiteState) (hne : items ≠ [])
    (hs : strategy = "track_all" ∨ strategy = "track_latest")
    (hcap : strategy = "track_all" →
      (trackAllLoop items st.seen_urls).2.length ≤ 1000) :
    (diffStep strategy items (diffStep strategy items st).2).1 = [] := by
  rcases hs with rfl | rfl
  · have hcap' := hcap rfl
    simp only [diffStep_track_all]
    have hst1 : (trackAllDiff items st).2.seen_urls
        = (trackAllLoop items st.seen_urls).2 := by
      show capSeen (trackAllLoop items st.seen_urls).2
          = (trackAllLoop items st.seen_urls).2
      exact capSeen_of_le _ hcap'
    have hall : ∀ it ∈ items, it.2 ∈ (trackAllDiff items st).2.seen_urls := by
      intro it hit
      rw [hst1]
      exact (trackAllLoop_mem_snd items st.seen_urls it.2).mpr
        (Or.inr (List.mem_map_of_mem Prod.snd hit))
    have hproj : (trackAllDiff items (trackAllDiff items st).2).1
        = (trackAllLoop items (trackAllDiff items st).2.seen_urls).1 := rfl
    rw [hproj, trackAllLoop_all_seen items _ hall]
  · obtain ⟨it0, tl, rfl⟩ := List.exists_cons_of_ne_nil hne
    obtain ⟨t0, l0⟩ := it0
    simp only [diffStep_track_latest]
    have hm := trackLatestDiff_marker t0 l0 tl st
    generalize hg : (trackLatestDiff ((t0, l0) :: tl) st).2 = st1 at hm
    have hcond : ¬ (some l0 ≠ st1.last_seen_url) := by
      rw [hm]
      simp
    simp only [trackLatestDiff, if_neg hcond]

/-- C3 witness for the amended statement: a small `track_all` run whose
second pass reports nothing new. -/
theorem C3_diff_idempotent_witness :
    (diffStep "track_all" [("a", "u1")]
      (diffStep "track_all" [("a", "u1")] defaultSiteState).2).1 = [] :=
  C3_diff_idempotent "track_all" [("a", "u1")] defaultSiteState (by decide)
    (Or.inl rfl) (fun _ => by decide)

set_option maxRecDepth 4000 in
/-- C3 counterexample: with a loaded `track_all` seen list of 1001
distinct URLs and an unchanged page showing the oldest of them, the
first diff reports nothing new but the cap prunes that oldest URL from
the persisted list, so the second diff over the very same page reports
it as new again: the diff is not idempotent as claimed. -/
theorem C3_counterexample :
    (diffStep "track_all" exItems
      (diffStep "track_all" exItems exState).2).1 ≠ [] := by
  have hlen : exSeen.length = 1001 := by simp [exSeen]
  have hmem0 : exLink 0 ∈ exSeen := by
    simp only [exSeen, List.mem_map]
    exact ⟨0, by simp, rfl⟩
  have hloop1 : trackAllLoop exItems exSeen = ([], exSeen) := by
    apply trackAllLoop_all_seen
    intro it hit
    simp only [exItems, List.mem_singleton] at hit
    rw [hit]
    exact hmem0
  have hstate1 : (trackAllDiff exItems exState).2.seen_urls
      = exSeen.drop 1 := by
    rw [trackAllDiff_seen, show exState.seen_urls = exSeen from rfl, hloop1]
    show capSeen exSeen = exSeen.drop 1
    unfold capSeen
    rw [hlen]
    norm_num
  have hcons : exSeen
      = exLink 0 :: (List.range 1000).map (fun j => exLink (j + 1)) := by
    unfold exSeen
    rw [show (1001 : Nat) = 1000 + 1 from rfl, List.range_succ_eq_map]
    simp [List.map_map, Function.comp]
  have hdrop : exSeen.drop 1
      = (List.range 1000).map (fun j => exLink (j + 1)) := by
    rw [hcons]
    rfl
  have hnotmem : exLink 0 ∉ exSeen.drop 1 := by
    rw [hdrop]
    intro hmem
    obtain ⟨j, _, hje⟩ := List.mem_map.mp hmem
    have hd : List.replicate (j + 1) 'a' = List.replicate 0 'a' :=
      congrArg String.data hje
    simp at hd
  rw [diffStep_track_all, diffStep_track_all, trackAllDiff_fst, hstate1]
  simp only [exItems, trackAllLoop, if_neg hnotmem]
  simp

/-- C8: notification failures are swallowed: for every topic, title,
link and HTTP outcome, `notify` returns normally (the exception channel
is never used) with the warning lines the handler produces; moreover the
run's final state mapping, history content and reaching of the final
state save are identical for any two notification-outcome oracles, and
history content written earlier is preserved as a suffix of the final
history, so a failed notification aborts nothing and loses no items. -/
theorem C8_notify_best_effort (topic title link : String) (r : HttpOutcome)
    (timestamp : String) (o1 o2 : Nat → HttpOutcome) (entries : List Entry)
    (st0 : String → Option SiteState) (hist0 : Option String) :
    notify topic title link r = Except.ok (notifyWarnings topic title link r)
    ∧ (run_watcher timestamp o1 entries st0 hist0).1.state
        = (run_watcher timestamp o2 entries st0 hist0).1.state
    ∧ (run_watcher timestamp o1 entries st0 hist0).1.history
        = (run_watcher timestamp o2 entries st0 hist0).1.history
    ∧ (run_watcher timestamp o1 entries st0 hist0).2
        = (run_watcher timestamp o2 entries st0 hist0).2
    ∧ ∃ p, (run_watcher timestamp o1 entries st0 hist0).1.history.getD ""
        = p ++ hist0.getD "" := by
  have hn : notify topic title link r
      = Except.ok (notifyWarnings topic title link r) := by
    unfold notify notifyWarnings
    cases notifyCore topic title link r <;> rfl
  by_cases he : entries = []
  · subst he
    exact ⟨hn, rfl, rfl, rfl, ⟨"", rfl⟩⟩
  · unfold run_watcher
    simp only [if_neg he]
    obtain ⟨h1, h2, _⟩ :=
      runFold_oracle timestamp o1 o2 entries (initAcc st0 hist0)
        (initAcc st0 hist0) rfl rfl rfl
    exact ⟨hn, h1, h2, trivial, runFold_history_suffix timestamp o1 entries _⟩

/-- C9: per-site failure isolation: a config entry whose fetch produced
nothing (or whose page yielded no items) is skipped without effect, the
remaining entries before and after it are all processed exactly as they
would be without it, and the run still reaches the final state save. -/
theorem C9_per_site_isolation (timestamp : String) (o : Nat → HttpOutcome)
    (pre post : List Entry) (bad : Entry)
    (st0 : String → Option SiteState) (hist0 : Option String)
    (hbad : bad.fetched = none ∨ bad.fetched = some []) :
    run_watcher timestamp o (pre ++ bad :: post) st0 hist0
      = (runFold timestamp o (pre ++ post) (initAcc st0 hist0), true) := by
  have hne : pre ++ bad :: post ≠ [] := by simp
  unfold run_watcher
  rw [if_neg hne]
  unfold runFold
  rw [List.foldl_append, List.foldl_cons,
    processSite_skip timestamp o _ bad hbad, ← List.foldl_append]

/-- C9 witness: a one-site config whose only site fails to fetch is
processed as the empty config fold, and the state save is reached. -/
theorem C9_per_site_isolation_witness :
    run_watcher "T" (fun _ => HttpOutcome.response 200 "ok")
      [exEntryFetchFail] (fun _ => none) none
      = (runFold "T" (fun _ => HttpOutcome.response 200 "ok") []
          (initAcc (fun _ => none) none), true) :=
  C9_per_site_isolation "T" (fun _ => HttpOutcome.response 200 "ok") [] []
    exEntryFetchFail (fun _ => none) none (Or.inl rfl)

/-- C10: cross-site frame property: every key of the loaded state
mapping that is not the id of a site whose diff was computed in this run
(including the ids of invalid, unfetchable or empty-page sites) is left
unchanged in the state mapping that is saved at the end of the run. -/
theorem C10_state_frame (timestamp : String) (o : Nat → HttpOutcome)
    (entries : List Entry) (st0 : String → Option SiteState)
    (hist0 : Option String) (k : String)
    (hk : k ∉ diffedIds entries) :
    (run_watcher timestamp o entries st0 hist0).1.state k = st0 k := by
  unfold run_watcher
  by_cases he : entries = []
  · subst he
    rw [if_pos rfl]
    rfl
  · rw [if_neg he]
    exact runFold_state_frame timestamp o entries k (initAcc st0 hist0) hk

/-- C10 witness: a run touching site id s1 leaves an unrelated key
untouched. -/
theorem C10_state_frame_witness :
    (run_watcher "T" (fun _ => HttpOutcome.response 200 "ok")
      [exEntryOk] (fun _ => none) none).1.state "other" = none :=
  C10_state_frame "T" (fun _ => HttpOutcome.response 200 "ok")
    [exEntryOk] (fun _ => none) none "other" (by decide)

/-- C7 witness: a concrete prepend onto existing content. -/
theorem C7_history_prepend_witness :
    update_history "S" "T" [("a", "b")] (some "OLD")
      = historyBlock "S" "T" [("a", "b")] ++ "OLD"
    ∧ ("OLD" : String).length
        < (update_history "S" "T" [("a", "b")] (some "OLD")).length :=
  C7_history_prepend "S" "T" "OLD" [("a", "b")] (by decide)

end GovWatcher
